import Mathlib

/-!
Verification of the record-store layer of `src/app.py` (a small desktop CRM
for recruiter contacts backed by a single SQLite table).

The Python code is shallowly embedded as follows:

* Python strings are Lean `String`s; Python's `str.strip()` is `pyStrip`,
  slicing `s[:n]` is `pyTake`.
* SQLite `TEXT` columns that may hold `NULL` are `Option String`
  (`none` = SQL `NULL`).  SQLite's default BINARY collation on `TEXT`
  (bytewise `memcmp` on UTF-8, which coincides with code-point order)
  is embedded as `lexLt` / `strLt` / `strLe`.
* The `recruiters` table is a list of `Row`s together with the
  `AUTOINCREMENT` counter (`DB`).  SQL statements become list operations;
  `ORDER BY` becomes sorting with an explicit comparator (`sortBy`,
  an insertion sort; SQLite does not promise a particular order between
  rows that compare equal, and the stated theorems only use that the
  result is a permutation of the matching rows that is sorted for the
  comparator).
* The `Recruiter` dataclass as constructed by the application (all string
  fields are `str`) is `Recruiter`; a contact read back from the database
  (where columns may be `NULL`) is `RecruiterRead`.
-/

/-- Source line 24: `DEFAULT_STATUS = "первичный контакт"`. -/
def DEFAULT_STATUS : String := "первичный контакт"

/-- Source lines 25-31: the fixed status set `STATUS_OPTIONS`. -/
def STATUS_OPTIONS : List String :=
  ["первичный контакт", "ожидание ответа", "интервью", "оффер", "отказ"]

/-- Source line 32: `COMMENT_PREVIEW_LIMIT = 120`. -/
def COMMENT_PREVIEW_LIMIT : Nat := 120

/-- Whitespace characters removed by Python's `str.strip()` (for the ASCII
range; the claims never exercise non-ASCII whitespace). -/
def isPySpace (c : Char) : Bool :=
  c = ' ' || c = '\t' || c = '\n' || c = '\r' || c = '\x0b' || c = '\x0c'

/-- Embedding of Python's `str.strip()`: drop leading and trailing
whitespace. -/
def pyStrip (s : String) : String :=
  ⟨List.rdropWhile isPySpace (List.dropWhile isPySpace s.data)⟩

/-- Embedding of Python's slicing `s[:n]`: the first `n` characters. -/
def pyTake (s : String) (n : Nat) : String := ⟨s.data.take n⟩

/-- Lexicographic order on code-point sequences: the order SQLite's BINARY
collation induces on `TEXT` values (bytewise comparison of UTF-8, which
agrees with code-point order). -/
def lexLt : List Char → List Char → Bool
  | _, [] => false
  | [], _ :: _ => true
  | a :: as, b :: bs =>
    if a.toNat < b.toNat then true
    else if b.toNat < a.toNat then false
    else lexLt as bs

/-- Strict BINARY-collation order on `TEXT` values. -/
def strLt (a b : String) : Bool := lexLt a.data b.data

/-- Reflexive BINARY-collation order on `TEXT` values. -/
def strLe (a b : String) : Bool := !(strLt b a)

/-- Insertion of an element into a sorted list, used to give the `ORDER BY`
result an executable definition. -/
def insertSorted (le : α → α → Bool) (a : α) : List α → List α
  | [] => [a]
  | b :: bs => if le a b then a :: b :: bs else b :: insertSorted le a bs

/-- Insertion sort with an explicit comparator: the embedding of `ORDER BY`. -/
def sortBy (le : α → α → Bool) : List α → List α
  | [] => []
  | a :: as => insertSorted le a (sortBy le as)

/-- Source lines 54-67: the `Recruiter` dataclass as the application
constructs it (every string field holds a `str`; `id` is `None` until the
row is stored).  The field defaults are the dataclass defaults. -/
structure Recruiter where
  id : Option Nat := none
  company : String := ""
  full_name : String := ""
  telegram : String := ""
  phone : String := ""
  position : String := ""
  email : String := ""
  comments : String := ""
  resume_path : String := ""
  status : String := DEFAULT_STATUS
  last_contact : String := ""
  next_step : String := ""
deriving DecidableEq

/-- Source lines 86-101, `Recruiter.normalized`: a copy with every field
stripped; a falsy (empty) `status` becomes `DEFAULT_STATUS`, a truthy one is
stripped. -/
def Recruiter.normalized (r : Recruiter) : Recruiter :=
  { id := r.id
    company := pyStrip r.company
    full_name := pyStrip r.full_name
    telegram := pyStrip r.telegram
    phone := pyStrip r.phone
    position := pyStrip r.position
    email := pyStrip r.email
    comments := pyStrip r.comments
    resume_path := pyStrip r.resume_path
    status := if r.status = "" then DEFAULT_STATUS else pyStrip r.status
    last_contact := pyStrip r.last_contact
    next_step := pyStrip r.next_step }

/-- Source lines 111-114, `Recruiter.comment_preview`: empty comments give
`""`; otherwise the comments unchanged if their length is within `limit`,
else the first `limit` characters followed by `"..."`. -/
def Recruiter.comment_preview (r : Recruiter) (limit : Nat := COMMENT_PREVIEW_LIMIT) : String :=
  if r.comments = "" then ""
  else if limit < r.comments.length then pyTake r.comments limit ++ "..."
  else r.comments

/-- One row of the `recruiters` table (source lines 125-144).  `company` and
`full_name` are `NOT NULL`; every other text column may hold SQL `NULL`
(`none`).  `created_at` is the `CURRENT_TIMESTAMP` text assigned at insert.
The defaults only serve to build concrete example rows concisely. -/
structure Row where
  id : Nat := 0
  company : String := ""
  full_name : String := ""
  telegram : Option String := some ""
  phone : Option String := some ""
  position : Option String := some ""
  email : Option String := some ""
  comments : Option String := some ""
  resume_path : Option String := some ""
  status : Option String := some DEFAULT_STATUS
  last_contact : Option String := some ""
  next_step : Option String := some ""
  created_at : String := ""
deriving DecidableEq

/-- A contact as read back from the database by `Recruiter.from_row`
(source lines 69-84).  Python reuses the `Recruiter` dataclass for this, but
columns read from the database may be `NULL`, so the read-back image is
typed separately with `Option String` fields. -/
structure RecruiterRead where
  id : Option Nat
  company : String
  full_name : String
  telegram : Option String
  phone : Option String
  position : Option String
  email : Option String
  comments : Option String
  resume_path : Option String
  status : Option String
  last_contact : Option String
  next_step : Option String
deriving DecidableEq

/-- Source lines 69-84, `Recruiter.from_row`: each field is copied from the
row as-is.  The source's `row["resume_path"] if "resume_path" in row.keys()
else ""` branch always takes the first alternative here, because the
repository constructor runs `_ensure_columns` before any query, after which
the `resume_path` column exists. -/
def Recruiter.from_row (row : Row) : RecruiterRead :=
  { id := some row.id
    company := row.company
    full_name := row.full_name
    telegram := row.telegram
    phone := row.phone
    position := row.position
    email := row.email
    comments := row.comments
    resume_path := row.resume_path
    status := row.status
    last_contact := row.last_contact
    next_step := row.next_step }

/-- The read-back image of an application-side contact: every nullable
column holds the contact's string.  Used to state round-trip equalities. -/
def Recruiter.toRead (r : Recruiter) : RecruiterRead :=
  { id := r.id
    company := r.company
    full_name := r.full_name
    telegram := some r.telegram
    phone := some r.phone
    position := some r.position
    email := some r.email
    comments := some r.comments
    resume_path := some r.resume_path
    status := some r.status
    last_contact := some r.last_contact
    next_step := some r.next_step }

/-- The `recruiters` table plus the `AUTOINCREMENT` counter (SQLite never
reuses a rowid of a deleted row once `AUTOINCREMENT` is declared). -/
structure DB where
  nextId : Nat := 1
  rows : List Row := []
deriving DecidableEq

/-- Well-formedness of a store state: every stored id is below the
autoincrement counter.  Every state SQLite can reach satisfies this. -/
def DB.WF (db : DB) : Prop := ∀ r ∈ db.rows, r.id < db.nextId

instance (db : DB) : Decidable db.WF :=
  decidable_of_iff (∀ r ∈ db.rows, r.id < db.nextId) Iff.rfl

/-- The row written by `INSERT` (source lines 163-170 with the bound
parameters of `insert_params`, lines 103-106): all eleven columns come from
the normalized contact, `id` from the autoincrement counter and
`created_at` from the storage clock. -/
def Recruiter.newRow (r : Recruiter) (rid : Nat) (now : String) : Row :=
  let p := r.normalized
  { id := rid
    company := p.company
    full_name := p.full_name
    telegram := some p.telegram
    phone := some p.phone
    position := some p.position
    email := some p.email
    comments := some p.comments
    resume_path := some p.resume_path
    status := some p.status
    last_contact := some p.last_contact
    next_step := some p.next_step
    created_at := now }

namespace RecruiterRepository

/-- Source lines 163-170, `RecruiterRepository.add`: append the new row,
advancing the autoincrement counter.  `now` is the `CURRENT_TIMESTAMP`
value the storage engine assigns. -/
def add (db : DB) (r : Recruiter) (now : String) : DB :=
  { nextId := db.nextId + 1
    rows := db.rows ++ [Recruiter.newRow r db.nextId now] }

/-- The effect of the `UPDATE ... SET` list (source lines 175-189) on the
row with the matching id: all eleven mutable columns are replaced, `id` and
`created_at` stay. -/
def applySet (row : Row) (p : Recruiter) : Row :=
  { row with
    company := p.company
    full_name := p.full_name
    telegram := some p.telegram
    phone := some p.phone
    position := some p.position
    email := some p.email
    comments := some p.comments
    resume_path := some p.resume_path
    status := some p.status
    last_contact := some p.last_contact
    next_step := some p.next_step }

/-- Source lines 172-191, `RecruiterRepository.update`: a `None` id raises
`ValueError`; otherwise the `WHERE id = :id` update rewrites the matching
row (and nothing else), silently affecting zero rows when no id matches.
The bound parameters come from `update_params` (lines 108-109), i.e. the
normalized contact. -/
def update (db : DB) (r : Recruiter) : Except String DB :=
  match r.id with
  | none => .error "Не указан id для обновления рекрутера"
  | some rid =>
    let p := r.normalized
    .ok { db with rows := db.rows.map fun row => if row.id = rid then applySet row p else row }

/-- Source lines 214-216, `RecruiterRepository.delete`: `DELETE FROM
recruiters WHERE id = ?`. -/
def delete (db : DB) (rid : Nat) : DB :=
  { db with rows := db.rows.filter fun row => row.id != rid }

/-- Source lines 218-221, `RecruiterRepository.get`: `SELECT * WHERE
id = ?` and `fetchone`, mapped through `Recruiter.from_row`; `None` when no
row matches. -/
def get (db : DB) (rid : Nat) : Option RecruiterRead :=
  (db.rows.find? fun row => row.id == rid).map Recruiter.from_row

/-- The `WHERE` clause built in source lines 194-202: an equality condition
per filter, added only when the filter is truthy and differs from the
sentinel `"Все"` ("All").  A SQL comparison with a `NULL` status is not
true, hence the `some` on the right-hand side. -/
def rowMatches (cf sf : Option String) (row : Row) : Bool :=
  (match cf with
    | none => true
    | some f => if f == "" || f == "Все" then true else row.company == f) &&
  (match sf with
    | none => true
    | some f => if f == "" || f == "Все" then true else row.status == some f)

/-- The grouping of the `ORDER BY`'s first key (source line 207):
`CASE WHEN next_step IS NULL OR next_step = '' THEN 1 ELSE 0 END`. -/
def emptyGroup : Option String → Nat
  | none => 1
  | some s => if s = "" then 1 else 0

/-- `next_step ASC` under SQLite semantics: `NULL` sorts before every text
value, text values compare under BINARY collation. -/
def optLt : Option String → Option String → Bool
  | none, none => false
  | none, some _ => true
  | some _, none => false
  | some a, some b => strLt a b

/-- The comparator of the `ORDER BY` in source lines 206-209: empty-group
flag ascending, then `next_step` ascending, then `created_at` descending. -/
def fetchLE (a b : Row) : Bool :=
  if emptyGroup a.next_step < emptyGroup b.next_step then true
  else if emptyGroup b.next_step < emptyGroup a.next_step then false
  else if optLt a.next_step b.next_step then true
  else if optLt b.next_step a.next_step then false
  else strLe b.created_at a.created_at

/-- The result set of the `SELECT` in `fetch` (source lines 193-212) before
the row-to-object mapping: the matching rows in `ORDER BY` order. -/
def fetchRows (db : DB) (cf sf : Option String) : List Row :=
  sortBy fetchLE (db.rows.filter (rowMatches cf sf))

/-- Source lines 193-212, `RecruiterRepository.fetch`: the ordered matching
rows mapped through `Recruiter.from_row`. -/
def fetch (db : DB) (cf sf : Option String) : List RecruiterRead :=
  (fetchRows db cf sf).map Recruiter.from_row

/-- Source lines 223-225, `RecruiterRepository.get_companies`: `SELECT
DISTINCT company FROM recruiters ORDER BY company` — the distinct company
values in ascending BINARY-collation order. -/
def get_companies (db : DB) : List String :=
  sortBy strLe (db.rows.map Row.company).dedup

end RecruiterRepository

/-- The set of columns present in the `recruiters` table: the four columns
that later schema versions added may be missing in a store created by an
older version (source lines 146-161 inspect `PRAGMA table_info`). -/
structure Schema where
  hasStatus : Bool
  hasLastContact : Bool
  hasNextStep : Bool
  hasResumePath : Bool
deriving DecidableEq

/-- The schema with every expected column present. -/
def fullSchema : Schema := ⟨true, true, true, true⟩

/-- A store as found on disk before `initialize` runs: its schema flags plus
the table contents.  For a column that is absent the corresponding `Row`
field carries no meaning (there is no such column on disk). -/
structure Store where
  schema : Schema
  db : DB
deriving DecidableEq

namespace RecruiterRepository

/-- Source line 151: `ALTER TABLE recruiters ADD COLUMN status TEXT DEFAULT
'первичный контакт'`.  SQLite reports the constant default for every
pre-existing row of a column added this way. -/
def addStatusColumn (s : Store) : Store :=
  if s.schema.hasStatus then s
  else
    { schema := { s.schema with hasStatus := true }
      db := { s.db with rows := s.db.rows.map fun r => { r with status := some DEFAULT_STATUS } } }

/-- Source line 153: `ALTER TABLE recruiters ADD COLUMN last_contact TEXT`;
pre-existing rows read back `NULL`. -/
def addLastContactColumn (s : Store) : Store :=
  if s.schema.hasLastContact then s
  else
    { schema := { s.schema with hasLastContact := true }
      db := { s.db with rows := s.db.rows.map fun r => { r with last_contact := none } } }

/-- Source line 155: `ALTER TABLE recruiters ADD COLUMN next_step TEXT`;
pre-existing rows read back `NULL`. -/
def addNextStepColumn (s : Store) : Store :=
  if s.schema.hasNextStep then s
  else
    { schema := { s.schema with hasNextStep := true }
      db := { s.db with rows := s.db.rows.map fun r => { r with next_step := none } } }

/-- Source line 157: `ALTER TABLE recruiters ADD COLUMN resume_path TEXT`;
pre-existing rows read back `NULL`. -/
def addResumePathColumn (s : Store) : Store :=
  if s.schema.hasResumePath then s
  else
    { schema := { s.schema with hasResumePath := true }
      db := { s.db with rows := s.db.rows.map fun r => { r with resume_path := none } } }

/-- Source lines 146-161, `_ensure_columns`: the missing columns are added
in the source's order (status, last_contact, next_step, resume_path). -/
def ensure_columns (s : Store) : Store :=
  addResumePathColumn (addNextStepColumn (addLastContactColumn (addStatusColumn s)))

/-- Source lines 125-144, `_create_table`: `CREATE TABLE IF NOT EXISTS` —
creates the full-schema empty table only when no table exists at all. -/
def create_table : Option Store → Store
  | some s => s
  | none => { schema := fullSchema, db := { nextId := 1, rows := [] } }

/-- Repository construction (source lines 118-123): `_create_table`
followed by `_ensure_columns`. -/
def initStore (s : Option Store) : Store := ensure_columns (create_table s)

end RecruiterRepository

/-- The pointwise effect of the schema migration on one stored row. -/
def migrateRow (sc : Schema) (r : Row) : Row :=
  { r with
    status := if sc.hasStatus then r.status else some DEFAULT_STATUS
    last_contact := if sc.hasLastContact then r.last_contact else none
    next_step := if sc.hasNextStep then r.next_step else none
    resume_path := if sc.hasResumePath then r.resume_path else none }

/-- The error carried by a failed required-field validation. -/
abbrev ValidationError := String

/-- Source lines 603-610, `CRMApp._validate_required`: the warning shown
for the first empty required field, `none` when both are present. -/
def CRMApp.validate_required (r : Recruiter) : Option ValidationError :=
  if r.company = "" then some "Укажите компанию."
  else if r.full_name = "" then some "Укажите ФИО."
  else none

/-- Source lines 553-566 with 586-601, `CRMApp.add_recruiter`: the form
values are normalized (`_get_recruiter_from_form` returns
`recruiter.normalized()`), the required fields validated, and only then is
`repo.add` called; a validation failure surfaces the error and writes
nothing. -/
def CRMApp.add_recruiter (db : DB) (form : Recruiter) (now : String) :
    Except ValidationError DB :=
  let recruiter := form.normalized
  match CRMApp.validate_required recruiter with
  | some e => .error e
  | none => .ok (RecruiterRepository.add db recruiter now)

/-- A string is trimmed when stripping it changes nothing. -/
def trimmedStr (s : String) : Prop := pyStrip s = s

/-- A nullable column is trimmed when it is `NULL` or holds a trimmed
string. -/
def optTrimmed : Option String → Prop
  | none => True
  | some s => trimmedStr s

/-- All eleven columns written by `INSERT`/`UPDATE` hold trimmed values
(`created_at` is storage-assigned and not a written string field). -/
def Row.trimmedFields (r : Row) : Prop :=
  trimmedStr r.company ∧ trimmedStr r.full_name ∧ optTrimmed r.telegram
    ∧ optTrimmed r.phone ∧ optTrimmed r.position ∧ optTrimmed r.email
    ∧ optTrimmed r.comments ∧ optTrimmed r.resume_path ∧ optTrimmed r.status
    ∧ optTrimmed r.last_contact ∧ optTrimmed r.next_step

/-- The listing order exactly as claim C1 words it: non-empty `next_step`
first in ascending order; rows tied on `next_step`, including the entire
empty group, in descending `created_at` order.  Stated from the claim's
words, to be compared with the code's comparator `fetchLE`. -/
def claimLE (x y : Row) : Bool :=
  if RecruiterRepository.emptyGroup x.next_step < RecruiterRepository.emptyGroup y.next_step then true
  else if RecruiterRepository.emptyGroup y.next_step < RecruiterRepository.emptyGroup x.next_step then false
  else if RecruiterRepository.emptyGroup x.next_step = 1 then strLe y.created_at x.created_at
  else if RecruiterRepository.optLt x.next_step y.next_step then true
  else if RecruiterRepository.optLt y.next_step x.next_step then false
  else strLe y.created_at x.created_at

/-- A fresh, empty store. -/
def emptyDB : DB := {}

/-- Example row for the claimed listing order: empty `next_step`. -/
def exRowA : Row := { id := 1, full_name := "a", next_step := some "", created_at := "1" }

/-- Example row for the claimed listing order: later follow-up date. -/
def exRowB : Row := { id := 2, full_name := "b", next_step := some "2024-01-01", created_at := "2" }

/-- Example row for the claimed listing order: earlier follow-up date. -/
def exRowC : Row := { id := 3, full_name := "c", next_step := some "2023-05-05", created_at := "3" }

/-- The store of the listing-order example in the claim. -/
def exDB1 : DB := { nextId := 4, rows := [exRowA, exRowB, exRowC] }

/-- Row with empty-string `next_step` and the newer creation stamp. -/
def cexRowEmptyStep : Row := { id := 1, full_name := "a", next_step := some "", created_at := "2" }

/-- Row with `NULL` `next_step` (as migration leaves it) and the older
creation stamp. -/
def cexRowNullStep : Row := { id := 2, full_name := "b", next_step := none, created_at := "1" }

/-- A store mixing `NULL` and `''` in the empty `next_step` group. -/
def cexDB1 : DB := { nextId := 3, rows := [cexRowEmptyStep, cexRowNullStep] }

/-- A valid contact whose telegram handle carries surrounding whitespace. -/
def c2cex : Recruiter := { company := "Acme", full_name := "J Doe", telegram := " @x " }

/-- A valid contact whose status is whitespace only (truthy in Python). -/
def c5cex : Recruiter := { company := "Acme", full_name := "J Doe", status := " " }

/-- Store with companies `Acme`, `acme`, `Beta` for the dedup example. -/
def c8db : DB :=
  { nextId := 4
    rows := [ { id := 1, company := "Acme", full_name := "a", created_at := "1" },
              { id := 2, company := "acme", full_name := "b", created_at := "2" },
              { id := 3, company := "Beta", full_name := "c", created_at := "3" } ] }

/-- Witness contact with already-trimmed required fields. -/
def wRec2 : Recruiter := { company := "Acme", full_name := "J Doe" }

/-- Witness contact with an empty status field. -/
def wRec5 : Recruiter := { company := "Acme", full_name := "J Doe", status := "" }

/-- Witness row stored under id 1. -/
def wRow6 : Row := { id := 1, company := "Acme", full_name := "A B", created_at := "t1" }

/-- Witness store holding only `wRow6`. -/
def wDB6 : DB := { nextId := 2, rows := [wRow6] }

/-- Witness contact carrying an id that is not stored in `wDB6`. -/
def wRec6 : Recruiter := { id := some 5, company := "Acme", full_name := "A B" }

/-- Witness form whose company is whitespace only. -/
def wForm3 : Recruiter := { company := "   ", full_name := "J Doe" }

/-- Witness contact with untrimmed optional fields. -/
def wRec9 : Recruiter := { company := " Acme ", full_name := " J Doe ", phone := " 42 " }

/-- A comment of 121 characters, one over the preview limit. -/
def longComments : String := ⟨List.replicate 121 'x'⟩

/-- Witness contact with an over-long comment. -/
def wRec10 : Recruiter := { comments := longComments }

/-- A row written by an old schema version (none of the four later columns
exist, so their `Row` fields are irrelevant). -/
def wOldRow : Row :=
  { id := 1, company := "Acme", full_name := "J", telegram := some "t", created_at := "t0" }

/-- An on-disk store created by the oldest schema: all four later columns
missing. -/
def wOldStore : Store :=
  { schema := ⟨false, false, false, false⟩, db := { nextId := 2, rows := [wOldRow] } }

/-- An on-disk store that already has every expected column. -/
def wFullStore : Store := { schema := fullSchema, db := { nextId := 2, rows := [wOldRow] } }

/-- The image of `wOldRow` under the migration of `wOldStore`. -/
def migRowW : Row := migrateRow wOldStore.schema wOldRow

theorem dropWhile_fix_of_front {p : Char → Bool} {l k : List Char}
    (hl : List.dropWhile p l = l) (hk : k <+: l) : List.dropWhile p k = k := by
  cases k with
  | nil => rfl
  | cons a t =>
    obtain ⟨rest, hrest⟩ := hk
    subst hrest
    simp only [List.cons_append] at hl
    have hpa : p a = false := by
      cases h : p a
      · rfl
      · rw [List.dropWhile_cons, if_pos h] at hl
        have hlen := congrArg List.length hl
        have hle := (List.dropWhile_sublist (l := t ++ rest) p).length_le
        simp only [List.length_cons] at hlen
        omega
    rw [List.dropWhile_cons, if_neg (by simp [hpa])]

/-- Stripping is idempotent: a second `.strip()` changes nothing. -/
theorem pyStrip_idem (s : String) : pyStrip (pyStrip s) = pyStrip s := by
  apply String.ext
  show List.rdropWhile isPySpace
      (List.dropWhile isPySpace
        (List.rdropWhile isPySpace (List.dropWhile isPySpace s.data)))
    = List.rdropWhile isPySpace (List.dropWhile isPySpace s.data)
  have hfix : List.dropWhile isPySpace (List.dropWhile isPySpace s.data)
      = List.dropWhile isPySpace s.data := List.dropWhile_idempotent _ _
  have hpre := List.rdropWhile_prefix isPySpace (List.dropWhile isPySpace s.data)
  rw [dropWhile_fix_of_front hfix hpre, List.rdropWhile_idempotent]

theorem charToNat_inj {a b : Char} (h : a.toNat = b.toNat) : a = b := by
  cases a; cases b
  simp only [Char.toNat] at h
  congr 1
  exact UInt32.toNat.inj h

theorem lexLt_irrefl (l : List Char) : lexLt l l = false := by
  induction l with
  | nil => rfl
  | cons a as ih => simp [lexLt, ih]

theorem lexLt_trans :
    ∀ (a b c : List Char), lexLt a b = true → lexLt b c = true → lexLt a c = true := by
  intro a
  induction a with
  | nil =>
    intro b c hab hbc
    cases b with
    | nil => simp [lexLt] at hab
    | cons y ys =>
      cases c with
      | nil => simp [lexLt] at hbc
      | cons z zs => simp [lexLt]
  | cons x xs ih =>
    intro b c hab hbc
    cases b with
    | nil => simp [lexLt] at hab
    | cons y ys =>
      cases c with
      | nil => simp [lexLt] at hbc
      | cons z zs =>
        simp only [lexLt] at hab hbc ⊢
        by_cases h1 : x.toNat < y.toNat
        · by_cases h2 : y.toNat < z.toNat
          · rw [if_pos (by omega)]
          · simp only [if_pos h1] at hab
            rw [if_neg h2] at hbc
            by_cases h3 : z.toNat < y.toNat
            · simp [h3] at hbc
            · rw [if_pos (by omega)]
        · rw [if_neg h1] at hab
          by_cases h2 : y.toNat < x.toNat
          · simp [h2] at hab
          · rw [if_neg h2] at hab
            by_cases h3 : y.toNat < z.toNat
            · rw [if_pos (by omega)]
            · rw [if_neg h3] at hbc
              by_cases h4 : z.toNat < y.toNat
              · simp [h4] at hbc
              · rw [if_neg h4] at hbc
                rw [if_neg (by omega), if_neg (by omega)]
                exact ih ys zs hab hbc

theorem lexLt_eq_of_not :
    ∀ (a b : List Char), lexLt a b = false → lexLt b a = false → a = b := by
  intro a
  induction a with
  | nil =>
    intro b hab _
    cases b with
    | nil => rfl
    | cons y ys => simp [lexLt] at hab
  | cons x xs ih =>
    intro b hab hba
    cases b with
    | nil => simp [lexLt] at hba
    | cons y ys =>
      simp only [lexLt] at hab hba
      by_cases h1 : x.toNat < y.toNat
      · simp [h1] at hab
      · by_cases h2 : y.toNat < x.toNat
        · simp [h2] at hba
        · rw [if_neg h1, if_neg h2] at hab
          rw [if_neg h2, if_neg h1] at hba
          have hx : x = y := charToNat_inj (by omega)
          rw [hx, ih ys hab hba]

theorem strLe_refl (a : String) : strLe a a = true := by
  simp [strLe, strLt, lexLt_irrefl]

theorem strLe_trans {a b c : String} (h1 : strLe a b = true) (h2 : strLe b c = true) :
    strLe a c = true := by
  simp only [strLe, strLt, Bool.not_eq_true'] at h1 h2 ⊢
  cases hab : lexLt a.data b.data with
  | true =>
    cases hca : lexLt c.data a.data with
    | true =>
      have h3 := lexLt_trans _ _ _ hca hab
      rw [h2] at h3
      simp at h3
    | false => rfl
  | false =>
    have heq : a = b := String.ext (lexLt_eq_of_not _ _ hab h1)
    rw [heq]
    exact h2

theorem strLe_total (a b : String) : (strLe a b || strLe b a) = true := by
  simp only [strLe, strLt, Bool.or_eq_true, Bool.not_eq_true']
  cases h1 : lexLt b.data a.data with
  | false => exact Or.inl rfl
  | true =>
    cases h2 : lexLt a.data b.data with
    | false => exact Or.inr rfl
    | true =>
      have h3 := lexLt_trans _ _ _ h1 h2
      rw [lexLt_irrefl] at h3
      simp at h3

theorem insertSorted_perm (le : α → α → Bool) (a : α) (l : List α) :
    (insertSorted le a l).Perm (a :: l) := by
  induction l with
  | nil => exact List.Perm.refl _
  | cons b bs ih =>
    by_cases h : le a b
    · simp [insertSorted, h]
    · simp only [insertSorted, if_neg h]
      exact (List.Perm.cons b ih).trans (List.Perm.swap a b bs)

theorem sortBy_perm (le : α → α → Bool) (l : List α) : (sortBy le l).Perm l := by
  induction l with
  | nil => exact List.Perm.refl _
  | cons a as ih =>
    exact ((insertSorted_perm le a (sortBy le as)).trans (List.Perm.cons a ih))

theorem insertSorted_pairwise (le : α → α → Bool)
    (htrans : ∀ a b c, le a b = true → le b c = true → le a c = true)
    (htotal : ∀ a b, (le a b || le b a) = true)
    (a : α) (l : List α) (hl : List.Pairwise (fun x y => le x y = true) l) :
    List.Pairwise (fun x y => le x y = true) (insertSorted le a l) := by
  induction l with
  | nil => simp [insertSorted]
  | cons b bs ih =>
    obtain ⟨hb, hbs⟩ := List.pairwise_cons.mp hl
    by_cases h : le a b
    · rw [insertSorted, if_pos h]
      refine List.Pairwise.cons ?_ (List.Pairwise.cons hb hbs)
      intro x hx
      rcases List.mem_cons.mp hx with hxb | hxbs
      · rw [hxb]; exact h
      · exact htrans a b x h (hb x hxbs)
    · rw [insertSorted, if_neg h]
      have hba : le b a = true := by
        have := htotal a b
        cases hab : le a b
        · rw [hab] at this; simpa using this
        · exact absurd hab h
      refine List.Pairwise.cons ?_ (ih hbs)
      intro x hx
      have hx := (insertSorted_perm le a bs).mem_iff.mp hx
      rcases List.mem_cons.mp hx with hxa | hxbs
      · rw [hxa]; exact hba
      · exact hb x hxbs

theorem sortBy_pairwise (le : α → α → Bool)
    (htrans : ∀ a b c, le a b = true → le b c = true → le a c = true)
    (htotal : ∀ a b, (le a b || le b a) = true)
    (l : List α) :
    List.Pairwise (fun x y => le x y = true) (sortBy le l) := by
  induction l with
  | nil => simp [sortBy]
  | cons a as ih => exact insertSorted_pairwise le htrans htotal a (sortBy le as) ih

theorem mem_sortBy {le : α → α → Bool} {a : α} {l : List α} :
    a ∈ sortBy le l ↔ a ∈ l := (sortBy_perm le l).mem_iff

theorem bool_eq_false {b : Bool} (h : ¬ b = true) : b = false := by
  cases b with
  | false => rfl
  | true => exact absurd rfl h

theorem find?_append_none {p : α → Bool} {l1 : List α} (l2 : List α)
    (h : l1.find? p = none) : (l1 ++ l2).find? p = l2.find? p := by
  induction l1 with
  | nil => rfl
  | cons a as ih =>
    cases hpa : p a with
    | false =>
      rw [List.find?_cons_of_neg _ (by simp [hpa])] at h
      rw [List.cons_append, List.find?_cons_of_neg _ (by simp [hpa])]
      exact ih h
    | true =>
      rw [List.find?_cons_of_pos _ hpa] at h
      simp at h

theorem optLt_trans {a b c : Option String}
    (h1 : RecruiterRepository.optLt a b = true)
    (h2 : RecruiterRepository.optLt b c = true) :
    RecruiterRepository.optLt a c = true := by
  cases a with
  | none =>
    cases c with
    | none =>
      cases b with
      | none => simp [RecruiterRepository.optLt] at h1
      | some b => simp [RecruiterRepository.optLt] at h2
    | some c => simp [RecruiterRepository.optLt]
  | some a =>
    cases b with
    | none => simp [RecruiterRepository.optLt] at h1
    | some b =>
      cases c with
      | none => simp [RecruiterRepository.optLt] at h2
      | some c =>
        simp only [RecruiterRepository.optLt, strLt] at h1 h2 ⊢
        exact lexLt_trans _ _ _ h1 h2

theorem optLt_eq_of_not {a b : Option String}
    (h1 : RecruiterRepository.optLt a b = false)
    (h2 : RecruiterRepository.optLt b a = false) : a = b := by
  cases a with
  | none =>
    cases b with
    | none => rfl
    | some b => simp [RecruiterRepository.optLt] at h1
  | some a =>
    cases b with
    | none => simp [RecruiterRepository.optLt] at h2
    | some b =>
      simp only [RecruiterRepository.optLt, strLt] at h1 h2
      rw [String.ext (lexLt_eq_of_not _ _ h1 h2)]

theorem fetchLE_trans (a b c : Row)
    (h1 : RecruiterRepository.fetchLE a b = true)
    (h2 : RecruiterRepository.fetchLE b c = true) :
    RecruiterRepository.fetchLE a c = true := by
  simp only [RecruiterRepository.fetchLE] at h1 h2 ⊢
  set na := a.next_step
  set nb := b.next_step
  set nc := c.next_step
  set ca := a.created_at
  set cb := b.created_at
  set cc := c.created_at
  rcases Nat.lt_trichotomy (RecruiterRepository.emptyGroup na) (RecruiterRepository.emptyGroup nb) with hg1 | hg1 | hg1
  · rcases Nat.lt_trichotomy (RecruiterRepository.emptyGroup nb) (RecruiterRepository.emptyGroup nc) with hg2 | hg2 | hg2
    · rw [if_pos (by omega)]
    · rw [if_pos (by omega)]
    · rw [if_neg (by omega), if_pos hg2] at h2
      simp at h2
  · rcases Nat.lt_trichotomy (RecruiterRepository.emptyGroup nb) (RecruiterRepository.emptyGroup nc) with hg2 | hg2 | hg2
    · rw [if_pos (by omega)]
    · rw [if_neg (by omega), if_neg (by omega)] at h1 h2 ⊢
      by_cases o1 : RecruiterRepository.optLt na nb = true
      · by_cases o2 : RecruiterRepository.optLt nb nc = true
        · rw [if_pos (optLt_trans o1 o2)]
        · by_cases o3 : RecruiterRepository.optLt nc nb = true
          · rw [if_neg o2, if_pos o3] at h2
            simp at h2
          · have hbc : nb = nc := optLt_eq_of_not (bool_eq_false o2) (bool_eq_false o3)
            rw [← hbc]
            rw [if_pos o1]
      · by_cases o1b : RecruiterRepository.optLt nb na = true
        · rw [if_neg o1, if_pos o1b] at h1
          simp at h1
        · have hab : na = nb := optLt_eq_of_not (bool_eq_false o1) (bool_eq_false o1b)
          rw [if_neg o1, if_neg o1b] at h1
          rw [hab]
          by_cases o2 : RecruiterRepository.optLt nb nc = true
          · rw [if_pos o2]
          · by_cases o3 : RecruiterRepository.optLt nc nb = true
            · rw [if_neg o2, if_pos o3] at h2
              simp at h2
            · rw [if_neg o2, if_neg o3] at h2 ⊢
              exact strLe_trans h2 h1
    · rw [if_neg (by omega), if_pos hg2] at h2
      simp at h2
  · rw [if_neg (by omega), if_pos hg1] at h1
    simp at h1

theorem fetchLE_total (a b : Row) :
    (RecruiterRepository.fetchLE a b || RecruiterRepository.fetchLE b a) = true := by
  cases h : RecruiterRepository.fetchLE a b with
  | true => rfl
  | false =>
    simp only [Bool.false_or]
    simp only [RecruiterRepository.fetchLE] at h ⊢
    rcases Nat.lt_trichotomy (RecruiterRepository.emptyGroup a.next_step) (RecruiterRepository.emptyGroup b.next_step) with hg | hg | hg
    · rw [if_pos hg] at h
      simp at h
    · rw [if_neg (by omega), if_neg (by omega)] at h ⊢
      by_cases o1 : RecruiterRepository.optLt a.next_step b.next_step = true
      · rw [if_pos o1] at h
        simp at h
      · by_cases o2 : RecruiterRepository.optLt b.next_step a.next_step = true
        · rw [if_pos o2]
        · rw [if_neg o1, if_neg o2] at h
          rw [if_neg o2, if_neg o1]
          have htot := strLe_total b.created_at a.created_at
          rw [h] at htot
          simpa using htot
    · rw [if_pos hg]

theorem mem_fetchRows {db : DB} {cf sf : Option String} {r : Row} :
    r ∈ RecruiterRepository.fetchRows db cf sf ↔
      r ∈ db.rows ∧ RecruiterRepository.rowMatches cf sf r = true := by
  rw [RecruiterRepository.fetchRows, mem_sortBy, List.mem_filter]

theorem normalized_status_trimmed (c : Recruiter) :
    trimmedStr (if c.status = "" then DEFAULT_STATUS else pyStrip c.status) := by
  by_cases h : c.status = ""
  · rw [if_pos h]
    show pyStrip DEFAULT_STATUS = DEFAULT_STATUS
    decide
  · rw [if_neg h]
    exact pyStrip_idem _

theorem newRow_trimmed (c : Recruiter) (rid : Nat) (now : String) :
    Row.trimmedFields (Recruiter.newRow c rid now) := by
  refine ⟨pyStrip_idem _, pyStrip_idem _, pyStrip_idem _, pyStrip_idem _, pyStrip_idem _,
    pyStrip_idem _, pyStrip_idem _, pyStrip_idem _, ?_, pyStrip_idem _, pyStrip_idem _⟩
  exact normalized_status_trimmed c

theorem applySet_trimmed (row : Row) (c : Recruiter) :
    Row.trimmedFields (RecruiterRepository.applySet row c.normalized) := by
  refine ⟨pyStrip_idem _, pyStrip_idem _, pyStrip_idem _, pyStrip_idem _, pyStrip_idem _,
    pyStrip_idem _, pyStrip_idem _, pyStrip_idem _, ?_, pyStrip_idem _, pyStrip_idem _⟩
  exact normalized_status_trimmed c

theorem mem_zip_map {α β : Type} (f : α → β) :
    ∀ (l : List α) (x : α) (y : β), (x, y) ∈ l.zip (l.map f) → y = f x := by
  intro l
  induction l with
  | nil =>
    intro x y h
    simp at h
  | cons a as ih =>
    intro x y h
    rw [List.map_cons, List.zip_cons_cons] at h
    rcases List.mem_cons.mp h with h | h
    · rw [Prod.mk.injEq] at h
      rw [h.2, h.1]
    · exact ih x y h

theorem migrateRow_full (r : Row) : migrateRow fullSchema r = r := by
  simp [migrateRow, fullSchema]

theorem map_migrateRow_full (rows : List Row) :
    rows.map (migrateRow ⟨true, true, true, true⟩) = rows := by
  induction rows with
  | nil => rfl
  | cons r rs ih =>
    rw [List.map_cons, ih]
    rw [show migrateRow ⟨true, true, true, true⟩ r = r from migrateRow_full r]

theorem ensure_columns_eq (s : Store) :
    RecruiterRepository.ensure_columns s
      = { schema := fullSchema
          db := { nextId := s.db.nextId, rows := s.db.rows.map (migrateRow s.schema) } } := by
  obtain ⟨⟨b1, b2, b3, b4⟩, nid, rows⟩ := s
  cases b1 <;> cases b2 <;> cases b3 <;> cases b4 <;>
    simp [RecruiterRepository.ensure_columns, RecruiterRepository.addStatusColumn,
      RecruiterRepository.addLastContactColumn, RecruiterRepository.addNextStepColumn,
      RecruiterRepository.addResumePathColumn, fullSchema, migrateRow, List.map_map,
      Function.comp_def, Store.mk.injEq, DB.mk.injEq, map_migrateRow_full]

theorem pyTake_length (s : String) (n : Nat) :
    (pyTake s n).length = min n s.length := by
  show (s.data.take n).length = min n s.length
  rw [List.length_take]
  rfl

/-- C10: `comment_preview` returns the empty string when `comments` is
empty, the comments unchanged when their length is at most 120 characters,
and otherwise exactly the first 120 characters of `comments` followed by
`"..."` — a string of exactly 123 characters; in every case the preview
never exceeds 123 characters. -/
theorem comment_preview_spec (r : Recruiter) :
    (r.comments = "" → r.comment_preview = "")
    ∧ (r.comments.length ≤ COMMENT_PREVIEW_LIMIT → r.comment_preview = r.comments)
    ∧ (COMMENT_PREVIEW_LIMIT < r.comments.length →
        r.comment_preview = pyTake r.comments COMMENT_PREVIEW_LIMIT ++ "..."
          ∧ r.comment_preview.length = COMMENT_PREVIEW_LIMIT + 3)
    ∧ r.comment_preview.length ≤ COMMENT_PREVIEW_LIMIT + 3 := by
  have hlen3 : ∀ _ : COMMENT_PREVIEW_LIMIT < r.comments.length,
      r.comment_preview = pyTake r.comments COMMENT_PREVIEW_LIMIT ++ "..."
        ∧ r.comment_preview.length = COMMENT_PREVIEW_LIMIT + 3 := by
    intro h
    have hne : r.comments ≠ "" := by
      intro hc
      rw [hc] at h
      have h0 : ("" : String).length = 0 := rfl
      omega
    have heq : r.comment_preview = pyTake r.comments COMMENT_PREVIEW_LIMIT ++ "..." := by
      rw [Recruiter.comment_preview, if_neg hne, if_pos h]
    refine ⟨heq, ?_⟩
    rw [heq, String.length_append, pyTake_length]
    have h3 : ("..." : String).length = 3 := rfl
    omega
  refine ⟨?_, ?_, hlen3, ?_⟩
  · intro h
    rw [Recruiter.comment_preview, if_pos h]
  · intro h
    by_cases hc : r.comments = ""
    · rw [Recruiter.comment_preview, if_pos hc, hc]
    · rw [Recruiter.comment_preview, if_neg hc, if_neg (by omega)]
  · by_cases h : COMMENT_PREVIEW_LIMIT < r.comments.length
    · exact le_of_eq (hlen3 h).2
    · by_cases hc : r.comments = ""
      · rw [Recruiter.comment_preview, if_pos hc]
        have h0 : ("" : String).length = 0 := rfl
        omega
      · rw [Recruiter.comment_preview, if_neg hc, if_neg h]
        omega

/-- Witness for C10: the three branches at concrete comments. -/
theorem comment_preview_spec_witness :
    Recruiter.comment_preview { comments := "" } = ""
    ∧ Recruiter.comment_preview { comments := "hi" } = "hi"
    ∧ Recruiter.comment_preview wRec10
        = pyTake wRec10.comments COMMENT_PREVIEW_LIMIT ++ "..." := by
  refine ⟨(comment_preview_spec { comments := "" }).1 rfl,
    (comment_preview_spec { comments := "hi" }).2.1 (by decide), ?_⟩
  exact ((comment_preview_spec wRec10).2.2.1 (by decide)).1

/-- C6: updating a contact that carries a non-`None` id absent from the
table is a deterministic silent no-op: no error is raised, zero rows are
affected, and every stored row is unchanged. -/
theorem update_unknown_id_noop (db : DB) (r : Recruiter) (rid : Nat)
    (hid : r.id = some rid) (habs : rid ∉ db.rows.map Row.id) :
    RecruiterRepository.update db r = Except.ok db := by
  simp only [RecruiterRepository.update, hid]
  have hmap : ∀ (l : List Row), rid ∉ l.map Row.id →
      (l.map fun row =>
        if row.id = rid then RecruiterRepository.applySet row r.normalized else row) = l := by
    intro l
    induction l with
    | nil => intro _; rfl
    | cons a as ih =>
      intro h
      rw [List.map_cons] at h ⊢
      simp only [List.mem_cons] at h
      push_neg at h
      rw [if_neg (fun e => h.1 e.symm), ih h.2]
  rw [hmap db.rows habs]

/-- Witness for C6 at a concrete store and contact. -/
theorem update_unknown_id_noop_witness :
    RecruiterRepository.update wDB6 wRec6 = Except.ok wDB6 :=
  update_unknown_id_noop wDB6 wRec6 5 (by decide) (by decide)

/-- C7: after `delete(id)`, `get(id)` reports not-found; a second
`delete(id)` completes without error and leaves the store unchanged; and a
delete of an id that is not stored is a no-op, not an error. -/
theorem delete_get_semantics (db : DB) (rid : Nat) :
    RecruiterRepository.get (RecruiterRepository.delete db rid) rid = none
    ∧ RecruiterRepository.delete (RecruiterRepository.delete db rid) rid
        = RecruiterRepository.delete db rid
    ∧ (rid ∉ db.rows.map Row.id → RecruiterRepository.delete db rid = db) := by
  refine ⟨?_, ?_, ?_⟩
  · rw [RecruiterRepository.get]
    have hfind : (RecruiterRepository.delete db rid).rows.find? (fun row => row.id == rid)
        = none := by
      apply List.find?_eq_none.mpr
      intro x hx
      simp only [RecruiterRepository.delete] at hx
      have hbne := (List.mem_filter.mp hx).2
      simpa using hbne
    rw [hfind]
    rfl
  · have hrows : (RecruiterRepository.delete db rid).rows.filter (fun row => row.id != rid)
        = (RecruiterRepository.delete db rid).rows := by
      apply List.filter_eq_self.mpr
      intro a ha
      simp only [RecruiterRepository.delete] at ha
      exact (List.mem_filter.mp ha).2
    show { RecruiterRepository.delete db rid with
        rows := (RecruiterRepository.delete db rid).rows.filter fun row => row.id != rid }
      = RecruiterRepository.delete db rid
    rw [hrows]
  · intro h
    have hrows : db.rows.filter (fun row => row.id != rid) = db.rows := by
      apply List.filter_eq_self.mpr
      intro a ha
      simp only [bne_iff_ne, ne_eq]
      intro e
      exact h (by rw [← e]; exact List.mem_map_of_mem Row.id ha)
    rw [RecruiterRepository.delete, hrows]

/-- Witness for C7 at a concrete store and ids. -/
theorem delete_get_semantics_witness :
    RecruiterRepository.get (RecruiterRepository.delete wDB6 1) 1 = none
    ∧ RecruiterRepository.delete wDB6 7 = wDB6 :=
  ⟨(delete_get_semantics wDB6 1).1, (delete_get_semantics wDB6 7).2.2 (by decide)⟩

/-- C3: a contact whose company or full name is empty after trimming always
fails the insert flow's required-field validation with a `ValidationError`
surfaced to the caller, and no write happens (the error result carries no
new store state). -/
theorem insert_empty_required_fails (db : DB) (form : Recruiter) (now : String)
    (h : pyStrip form.company = "" ∨ pyStrip form.full_name = "") :
    ∃ e : ValidationError, CRMApp.add_recruiter db form now = Except.error e := by
  by_cases hc : pyStrip form.company = ""
  · refine ⟨"Укажите компанию.", ?_⟩
    simp only [CRMApp.add_recruiter, CRMApp.validate_required, Recruiter.normalized]
    rw [if_pos hc]
  · have hn : pyStrip form.full_name = "" := h.resolve_left hc
    refine ⟨"Укажите ФИО.", ?_⟩
    simp only [CRMApp.add_recruiter, CRMApp.validate_required, Recruiter.normalized]
    rw [if_neg hc, if_pos hn]

/-- Witness for C3 at a whitespace-only company. -/
theorem insert_empty_required_fails_witness :
    ∃ e : ValidationError, CRMApp.add_recruiter emptyDB wForm3 "t0" = Except.error e :=
  insert_empty_required_fails emptyDB wForm3 "t0" (Or.inl (by decide))

/-- C9: every row written by the insert or update operation has leading and
trailing whitespace removed from every string field: after `add` every
stored row is an old row or trimmed, and likewise after a successful
`update`. -/
theorem writes_are_trimmed (db : DB) (c : Recruiter) (now : String) :
    (∀ r ∈ (RecruiterRepository.add db c now).rows, r ∈ db.rows ∨ Row.trimmedFields r)
    ∧ (∀ db2, RecruiterRepository.update db c = Except.ok db2 →
        ∀ r ∈ db2.rows, r ∈ db.rows ∨ Row.trimmedFields r) := by
  constructor
  · intro r hr
    simp only [RecruiterRepository.add] at hr
    rcases List.mem_append.mp hr with h | h
    · exact Or.inl h
    · right
      rw [List.mem_singleton] at h
      rw [h]
      exact newRow_trimmed c db.nextId now
  · intro db2 hok r hr
    cases hid : c.id with
    | none =>
      simp only [RecruiterRepository.update, hid] at hok
      exact Except.noConfusion hok
    | some rid =>
      simp only [RecruiterRepository.update, hid, Except.ok.injEq] at hok
      rw [← hok] at hr
      obtain ⟨row, hrow, hfr⟩ := List.mem_map.mp hr
      by_cases hm : row.id = rid
      · right
        rw [← hfr, if_pos hm]
        exact applySet_trimmed row c
      · left
        rw [← hfr, if_neg hm]
        exact hrow

/-- Witness for C9: the row just inserted from an untrimmed form is
trimmed. -/
theorem writes_are_trimmed_witness :
    Recruiter.newRow wRec9 1 "t0" ∈ (RecruiterRepository.add emptyDB wRec9 "t0").rows
    ∧ (Recruiter.newRow wRec9 1 "t0" ∈ emptyDB.rows
        ∨ Row.trimmedFields (Recruiter.newRow wRec9 1 "t0")) :=
  ⟨by decide, (writes_are_trimmed emptyDB wRec9 "t0").1 _ (by decide)⟩

/-- C2 (amended): inserting a contact with non-empty trimmed required
fields into a well-formed store (every stored id below the autoincrement
counter, true of every reachable store) and reading the new row back with
`get` returns the normalized form of the contact — every field trimmed and
an empty status defaulted — equal to it in every field except the
storage-assigned id; `created_at` is not a field of the read-back
contact. -/
theorem insert_get_roundtrip (db : DB) (c : Recruiter) (now : String)
    (hwf : db.WF) (_hc : pyStrip c.company ≠ "") (_hn : pyStrip c.full_name ≠ "") :
    RecruiterRepository.get (RecruiterRepository.add db c now) db.nextId
      = some { c.normalized.toRead with id := some db.nextId } := by
  have hnone : db.rows.find? (fun row => row.id == db.nextId) = none := by
    apply List.find?_eq_none.mpr
    intro x hx
    have hlt := hwf x hx
    simp only [beq_iff_eq]
    omega
  have hrows : (RecruiterRepository.add db c now).rows
      = db.rows ++ [Recruiter.newRow c db.nextId now] := rfl
  rw [RecruiterRepository.get, hrows, find?_append_none _ hnone,
    List.find?_cons_of_pos _ (by exact beq_iff_eq.mpr rfl)]
  rfl

/-- Witness for C2 at a concrete contact and the empty store. -/
theorem insert_get_roundtrip_witness :
    RecruiterRepository.get (RecruiterRepository.add emptyDB wRec2 "t0") 1
      = some { wRec2.normalized.toRead with id := some 1 } :=
  insert_get_roundtrip emptyDB wRec2 "t0" (by decide) (by decide) (by decide)

/-- C2 counterexample: inserting a contact whose telegram field carries
surrounding whitespace and reading the row back yields the trimmed value,
so the read-back contact is not equal to the inserted one outside of the
id field. -/
theorem insert_get_roundtrip_counterexample :
    RecruiterRepository.get (RecruiterRepository.add emptyDB c2cex "t0") 1
      ≠ some { c2cex.toRead with id := some 1 } := by decide

/-- C8: `get_companies` returns each distinct stored company value exactly
once, in ascending BINARY-collation (case-sensitive) order; on stored
companies `Acme`, `acme`, `Beta` it returns three entries, each once, in
the store's ascending collation order. -/
theorem get_companies_spec (db : DB) :
    (∀ x, x ∈ RecruiterRepository.get_companies db ↔ x ∈ db.rows.map Row.company)
    ∧ (RecruiterRepository.get_companies db).Nodup
    ∧ List.Pairwise (fun a b => strLe a b = true) (RecruiterRepository.get_companies db)
    ∧ RecruiterRepository.get_companies c8db = ["Acme", "Beta", "acme"] := by
  refine ⟨?_, ?_, ?_, by decide⟩
  · intro x
    rw [RecruiterRepository.get_companies, mem_sortBy, List.mem_dedup]
  · rw [RecruiterRepository.get_companies]
    exact ((sortBy_perm strLe (db.rows.map Row.company).dedup).nodup_iff).mpr
      (List.nodup_dedup _)
  · exact sortBy_pairwise strLe (fun a b c h1 h2 => strLe_trans h1 h2) strLe_total _

/-- C5 (amended): a contact whose status is exactly the empty string is
stored with the default status constant (`первичный контакт`, the first
member of the fixed status set), the default-status equality filter
returns it, and any other concrete (non-sentinel) status filter does not.
A whitespace-only status, by contrast, is truthy in Python and is stored
as its stripped value `""` — see the counterexample. -/
theorem empty_status_defaulted (db : DB) (c : Recruiter) (now f : String)
    (hst : c.status = "") (hwf : db.WF) :
    (Recruiter.newRow c db.nextId now).status = some DEFAULT_STATUS
    ∧ (∃ r ∈ RecruiterRepository.fetchRows (RecruiterRepository.add db c now) none
          (some DEFAULT_STATUS), r.id = db.nextId)
    ∧ (f ≠ "" → f ≠ "Все" → f ≠ DEFAULT_STATUS →
        ∀ r ∈ RecruiterRepository.fetchRows (RecruiterRepository.add db c now) none (some f),
          r.id ≠ db.nextId) := by
  have hstat : (Recruiter.newRow c db.nextId now).status = some DEFAULT_STATUS := by
    show some (if c.status = "" then DEFAULT_STATUS else pyStrip c.status) = some DEFAULT_STATUS
    rw [if_pos hst]
  refine ⟨hstat, ?_, ?_⟩
  · refine ⟨Recruiter.newRow c db.nextId now, ?_, rfl⟩
    rw [mem_fetchRows]
    constructor
    · show _ ∈ db.rows ++ [Recruiter.newRow c db.nextId now]
      exact List.mem_append_right _ (List.mem_singleton.mpr rfl)
    · show (if ((DEFAULT_STATUS == "") || (DEFAULT_STATUS == "Все")) then true
          else (Recruiter.newRow c db.nextId now).status == some DEFAULT_STATUS) = true
      rw [if_neg (by decide), hstat]
      simp
  · intro h1 h2 h3 r hr hid
    rw [mem_fetchRows] at hr
    obtain ⟨hmem, hmatch⟩ := hr
    have hmem2 : r ∈ db.rows ++ [Recruiter.newRow c db.nextId now] := hmem
    rcases List.mem_append.mp hmem2 with hold | hnew
    · have hlt := hwf r hold
      omega
    · rw [List.mem_singleton] at hnew
      subst hnew
      revert hmatch
      show (if ((f == "") || (f == "Все")) then true
          else (Recruiter.newRow c db.nextId now).status == some f) = true → False
      rw [if_neg (by simp [h1, h2]), hstat]
      simp only [beq_iff_eq, Option.some.injEq]
      exact fun he => h3 he.symm

/-- Witness for C5 at a concrete contact, the empty store, and the filter
`интервью`. -/
theorem empty_status_defaulted_witness :
    (Recruiter.newRow wRec5 1 "t0").status = some DEFAULT_STATUS
    ∧ (∃ r ∈ RecruiterRepository.fetchRows (RecruiterRepository.add emptyDB wRec5 "t0") none
          (some DEFAULT_STATUS), r.id = 1)
    ∧ (∀ r ∈ RecruiterRepository.fetchRows (RecruiterRepository.add emptyDB wRec5 "t0") none
          (some "интервью"), r.id ≠ 1) := by
  have h := empty_status_defaulted emptyDB wRec5 "t0" "интервью" rfl (by decide)
  exact ⟨h.1, h.2.1, h.2.2 (by decide) (by decide) (by decide)⟩

/-- C5 counterexample: a whitespace-only status is truthy in Python, so
`normalized` strips it to `""` instead of defaulting it; the stored status
is `""`, not the default status constant, and the default-status filter
does not return the contact. -/
theorem empty_status_defaulted_counterexample :
    ((RecruiterRepository.add emptyDB c5cex "t0").rows.map Row.status = [some ""])
    ∧ ¬ (∃ r ∈ RecruiterRepository.fetchRows (RecruiterRepository.add emptyDB c5cex "t0") none
          (some DEFAULT_STATUS), r.id = 1) := by decide

/-- C1 (amended): for every store state and filters, the result set of the
list operation is exactly the rows matching the filters (an unset, empty,
or sentinel `Все` filter matches everything), sorted by the code's
`ORDER BY` comparator: rows with non-empty `next_step` precede rows whose
`next_step` is empty or SQL `NULL`; within the non-empty group ascending
`next_step`; rows tied on the exact stored `next_step` value in descending
`created_at` order — inside the empty group `NULL` sorts before `''`, so
that group is not ordered purely by `created_at`.  The claim's three-value
example `2023-05-05`, `2024-01-01`, `""` holds as stated. -/
theorem fetch_filter_and_order (db : DB) (cf sf : Option String) :
    (RecruiterRepository.fetchRows db cf sf).Perm
        (db.rows.filter (RecruiterRepository.rowMatches cf sf))
    ∧ List.Pairwise (fun x y => RecruiterRepository.fetchLE x y = true)
        (RecruiterRepository.fetchRows db cf sf)
    ∧ (RecruiterRepository.fetchRows db none none).Perm db.rows
    ∧ RecruiterRepository.fetch db cf sf
        = (RecruiterRepository.fetchRows db cf sf).map Recruiter.from_row
    ∧ (RecruiterRepository.fetchRows exDB1 none none).map Row.next_step
        = [some "2023-05-05", some "2024-01-01", some ""] := by
  refine ⟨sortBy_perm _ _, sortBy_pairwise _ fetchLE_trans fetchLE_total _, ?_, rfl, by decide⟩
  have hfil : db.rows.filter (RecruiterRepository.rowMatches none none) = db.rows :=
    List.filter_eq_self.mpr (fun r _ => rfl)
  rw [RecruiterRepository.fetchRows, hfil]
  exact sortBy_perm _ _

/-- C1 counterexample: with a `NULL`-`next_step` row created earlier and an
`''`-`next_step` row created later, the code lists the `NULL` row first
(`next_step ASC` sorts SQL `NULL` before `''`), so the result violates the
claimed descending-`created_at` order across the entire empty group. -/
theorem fetch_order_claim_counterexample :
    ¬ List.Pairwise (fun x y => claimLE x y = true)
        (RecruiterRepository.fetchRows cexDB1 none none) := by decide

/-- C4: repository construction (`_create_table` then `_ensure_columns`,
the spec's initialize operation) is idempotent and migration-safe: a store
that already has every expected column is returned unchanged with no
schema alteration; a store from an older schema gains exactly the missing
columns, row count and all pre-existing column data unchanged row by row,
with an added `status` column reading back its declared default and the
other added columns reading back `NULL` (empty). -/
theorem initStore_migration (s : Store) :
    (s.schema = fullSchema → RecruiterRepository.initStore (some s) = s)
    ∧ (RecruiterRepository.initStore (some s)).schema = fullSchema
    ∧ (RecruiterRepository.initStore (some s)).db.nextId = s.db.nextId
    ∧ (RecruiterRepository.initStore (some s)).db.rows.length = s.db.rows.length
    ∧ ∀ o r, (o, r) ∈ s.db.rows.zip (RecruiterRepository.initStore (some s)).db.rows →
        r.id = o.id ∧ r.company = o.company ∧ r.full_name = o.full_name
        ∧ r.telegram = o.telegram ∧ r.phone = o.phone ∧ r.position = o.position
        ∧ r.email = o.email ∧ r.comments = o.comments ∧ r.created_at = o.created_at
        ∧ (s.schema.hasStatus = true → r.status = o.status)
        ∧ (s.schema.hasStatus = false → r.status = some DEFAULT_STATUS)
        ∧ (s.schema.hasLastContact = true → r.last_contact = o.last_contact)
        ∧ (s.schema.hasLastContact = false → r.last_contact = none)
        ∧ (s.schema.hasNextStep = true → r.next_step = o.next_step)
        ∧ (s.schema.hasNextStep = false → r.next_step = none)
        ∧ (s.schema.hasResumePath = true → r.resume_path = o.resume_path)
        ∧ (s.schema.hasResumePath = false → r.resume_path = none) := by
  have hinit : RecruiterRepository.initStore (some s)
      = { schema := fullSchema
          db := { nextId := s.db.nextId, rows := s.db.rows.map (migrateRow s.schema) } } := by
    show RecruiterRepository.ensure_columns s = _
    exact ensure_columns_eq s
  refine ⟨?_, ?_, ?_, ?_, ?_⟩
  · intro hfull
    rw [hinit]
    obtain ⟨sc, nid, rows⟩ := s
    have hsc : sc = fullSchema := hfull
    subst hsc
    show (⟨fullSchema, ⟨nid, rows.map (migrateRow ⟨true, true, true, true⟩)⟩⟩ : Store)
      = ⟨fullSchema, ⟨nid, rows⟩⟩
    rw [map_migrateRow_full]
  · rw [hinit]
  · rw [hinit]
  · rw [hinit]
    simp
  · intro o r hmem
    rw [hinit] at hmem
    have hr := mem_zip_map (migrateRow s.schema) s.db.rows o r hmem
    subst hr
    refine ⟨rfl, rfl, rfl, rfl, rfl, rfl, rfl, rfl, rfl,
      ?_, ?_, ?_, ?_, ?_, ?_, ?_, ?_⟩
    · intro h; simp [migrateRow, h]
    · intro h; simp [migrateRow, h]
    · intro h; simp [migrateRow, h]
    · intro h; simp [migrateRow, h]
    · intro h; simp [migrateRow, h]
    · intro h; simp [migrateRow, h]
    · intro h; simp [migrateRow, h]
    · intro h; simp [migrateRow, h]

/-- Witness for C4: the full-schema store is unchanged; migrating the
oldest-schema store defaults the status of its row and keeps its
company. -/
theorem initStore_migration_witness :
    RecruiterRepository.initStore (some wFullStore) = wFullStore
    ∧ migRowW.status = some DEFAULT_STATUS ∧ migRowW.company = wOldRow.company := by
  refine ⟨(initStore_migration wFullStore).1 rfl, ?_, ?_⟩
  · have h := (initStore_migration wOldStore).2.2.2.2 wOldRow migRowW (by decide)
    exact h.2.2.2.2.2.2.2.2.2.2.1 (by decide)
  · have h := (initStore_migration wOldStore).2.2.2.2 wOldRow migRowW (by decide)
    exact h.2.1
